import Mathlib

/-!
Shallow embedding of `src/src/main.rs` of the window-change-detector
repository: a polling desktop-activity tracker.  The accumulator state
machine (the body of the `loop` in `main`, lines 154–213), the text
utilities (`clean_window_title`, `format_duration`, `truncate_or_pad`),
and the Ctrl-C report handler (lines 100–149) are translated into pure
Lean functions.  Instants are modelled as natural numbers of seconds;
`Instant::duration_since` saturates at zero (Rust ≥ 1.60), matching
truncated `Nat` subtraction.  The `HashMap<String, Duration>` ledger is
modelled as an insertion-ordered association list with unique keys
(`HashMap` iteration order is unspecified; every claim about the ledger
is stated through key lookups or up to permutation where order matters).
The `unicode_width` crate is an external collaborator: character display
width enters as a function parameter `cw : Char → Nat`, and `stdWidth`
below is a concrete model of it for the characters used in witnesses.
-/

namespace WindowTracker

/-- `TITLE_WIDTH` constant, main.rs line 12. -/
def TITLE_WIDTH : Nat := 40

/-- `IDLE_THRESHOLD` constant in seconds, main.rs line 13. -/
def IDLE_THRESHOLD : Nat := 60

/-- The synthetic idle bucket key used at main.rs line 171. -/
def idleSentinel : String := "[비활성 상태]"

/-- The duration ledger `HashMap<String, Duration>` of main.rs line 92,
modelled as an insertion-ordered association list with unique keys. -/
abbrev Ledger := List (String × Nat)

/-- Model of `times.entry(k).or_insert(Duration::new(0, 0)) += d`
(main.rs lines 170–172 and 195–197): add `d` to the entry for `k`,
inserting the key if absent. -/
def addEntry (l : Ledger) (k : String) (d : Nat) : Ledger :=
  match l with
  | [] => [(k, d)]
  | (k', d') :: rest =>
      if k' = k then (k', d' + d) :: rest else (k', d') :: addEntry rest k d

/-- Lookup of a key's accumulated duration in the ledger. -/
def lookupKey (l : Ledger) (k : String) : Option Nat :=
  match l with
  | [] => none
  | (k', d') :: rest => if k' = k then some d' else lookupKey rest k

/-- Path separators recognised on Windows: `\` and `/`
(main.rs line 49 checks both). -/
def isSep (c : Char) : Bool := c = '\\' || c = '/'

/-- Splits a character list at separators, keeping empty components. -/
def splitAux : List Char → List Char → List String
  | [], acc => [String.mk acc.reverse]
  | c :: cs, acc =>
      if isSep c then String.mk acc.reverse :: splitAux cs []
      else splitAux cs (c :: acc)

/-- Components of a path string, split at `\` and `/`. -/
def splitPath (s : String) : List String := splitAux s.data []

/-- Model of `std::path::Path::file_name` on Windows (used at main.rs
lines 50–52, part of the std library, external to this repository):
empty and `"."` components are ignored; the final remaining component
is returned unless it is `".."` or the path is only a drive prefix such
as `"C:"`, in which case there is no file name. -/
def pathFileName (s : String) : Option String :=
  let comps := (splitPath s).filter (fun c => c ≠ "" && c ≠ ".")
  match comps.reverse with
  | [] => none
  | last :: rest =>
      if last = ".." then none
      else if rest = [] && last.contains ':' then none
      else some last

/-- `clean_window_title`, main.rs lines 48–57: if the title contains a
path separator, replace it by its final path component (falling back to
the whole title when there is none). -/
def clean_window_title (title : String) : String :=
  if title.data.any isSep then (pathFileName title).getD title else title

/-- Display width of a character list: the sum of per-character widths,
as computed by `UnicodeWidthStr::width` (str width is the sum of the
widths of its chars). -/
def strWidth (cw : Char → Nat) (cs : List Char) : Nat := (cs.map cw).sum

/-- The character loop of `truncate_or_pad`, main.rs lines 72–80:
accumulate characters while the running width stays within `max_width`;
on the first character that would overflow, emit `"..."` and stop. -/
def fitLoop (cw : Char → Nat) (max_width : Nat) : Nat → List Char → List Char
  | _, [] => []
  | current_width, c :: cs =>
      if max_width < current_width + cw c then ['.', '.', '.']
      else c :: fitLoop cw max_width (current_width + cw c) cs

/-- `truncate_or_pad`, main.rs lines 67–89: clean the title, truncate
with a `"..."` ellipsis once the display width would exceed
`max_width`, then right-pad with spaces when the result is narrower
than `max_width`. -/
def truncate_or_pad (cw : Char → Nat) (title : String) (max_width : Nat) : String :=
  let clean := clean_window_title title
  let result := fitLoop cw max_width 0 clean.data
  let total_width := strWidth cw result
  if total_width < max_width then
    String.mk (result ++ List.replicate (max_width - total_width) ' ')
  else
    String.mk result

/-- Concrete model of the `unicode_width` crate for the characters that
appear in this development: control characters have width 0 (the code's
`unwrap_or(0)`), Hangul syllables are wide (2 columns), everything else
used here is 1 column. -/
def stdWidth (c : Char) : Nat :=
  if c.toNat < 0x20 then 0
  else if 0xAC00 ≤ c.toNat ∧ c.toNat ≤ 0xD7A3 then 2
  else 1

/-- Two-digit zero padding, the `{:02}` format of main.rs line 64. -/
def pad2 (n : Nat) : String := if n < 10 then "0" ++ toString n else toString n

/-- `format_duration`, main.rs lines 59–65: `HH:MM:SS` with unbounded
zero-padded hours. -/
def format_duration (secs : Nat) : String :=
  pad2 (secs / 3600) ++ ":" ++ pad2 ((secs % 3600) / 60) ++ ":" ++ pad2 (secs % 60)

/-- The tracking state of `main`: the duration ledger (line 92), the
current window title (line 93, empty string initially), the
switch-reference timestamp (line 94), the idle flag (line 97) and the
idle-start timestamp (line 98). -/
structure St where
  window_times : Ledger
  last_window : String
  last_switch_time : Nat
  is_idle : Bool
  idle_start_time : Option Nat
deriving Repr, DecidableEq

/-- One poll observation: the sample time, the idle duration reported by
`get_idle_duration`, and the focused title from
`get_active_window_title` (`none` when the query fails). -/
structure Sample where
  now : Nat
  idle : Nat
  title : Option String
deriving Repr, DecidableEq

/-- The idle-transition part of the loop body, main.rs lines 155–183:
enter idle on a sample at or above the threshold while active (record
the idle start, credit nothing); leave idle on a sample below the
threshold while idle (credit `now - idle_start` to the idle bucket and
reset the switch-reference timestamp to `now`). -/
def stepIdle (s : St) (now idle_duration : Nat) : St :=
  if IDLE_THRESHOLD ≤ idle_duration ∧ s.is_idle = false then
    { s with is_idle := true, idle_start_time := some now }
  else if idle_duration < IDLE_THRESHOLD ∧ s.is_idle = true then
    let s1 :=
      match s.idle_start_time with
      | some start =>
          { s with is_idle := false,
                   window_times := addEntry s.window_times idleSentinel (now - start) }
      | none => { s with is_idle := false }
    { s1 with last_switch_time := now }
  else
    s

/-- The window-transition part of the loop body, main.rs lines 185–210:
when the sampled title differs from the remembered one and the tracker
is not idle, credit `now - last_switch_time` to the previous raw title
(unless it is the initial empty string) and reset the switch-reference
timestamp; in every differing case remember the new raw title. -/
def stepWindow (s : St) (now : Nat) (title : Option String) : St :=
  match title with
  | none => s
  | some current_title =>
      if s.last_window ≠ current_title then
        let s1 :=
          if s.is_idle = false then
            let duration := now - s.last_switch_time
            let s2 :=
              if s.last_window ≠ "" then
                { s with window_times := addEntry s.window_times s.last_window duration }
              else s
            { s2 with last_switch_time := now }
          else s
        { s1 with last_window := current_title }
      else s

/-- One iteration of the polling loop, main.rs lines 154–213: the idle
check runs first, then the window check, within the same tick (both
`Instant::now()` calls of a tick are modelled as the same instant). -/
def step (s : St) (now idle_duration : Nat) (title : Option String) : St :=
  stepWindow (stepIdle s now idle_duration) now title

/-- Folding the loop over a finite list of samples. -/
def run (s : St) : List Sample → St
  | [] => s
  | x :: xs => run (step s x.now x.idle x.title) xs

/-- The state created at program start (main.rs lines 92–98): empty
ledger, empty current-window title, switch-reference timestamp at
process start `t0`, not idle. -/
def initSt (t0 : Nat) : St :=
  { window_times := [], last_window := "", last_switch_time := t0,
    is_idle := false, idle_start_time := none }

/-- Stable insertion of an entry into a duration-descending list: the
new element goes in front of the first element whose duration does not
exceed its own, so earlier elements win ties. -/
def insertDesc (x : String × Nat) : Ledger → Ledger
  | [] => [x]
  | y :: ys => if y.2 ≤ x.2 then x :: y :: ys else y :: insertDesc x ys

/-- Model of `entries.sort_by(|a, b| b.1.cmp(a.1))` (main.rs line 110):
Rust's `sort_by` is a stable sort, so its result on this comparator is
the unique stable duration-descending reordering, realised here by a
stable insertion sort. -/
def sortLedger : Ledger → Ledger
  | [] => []
  | x :: xs => insertDesc x (sortLedger xs)

/-- Right alignment in `w` character cells, the `{:>10}` format of
main.rs line 134. -/
def padRightAlign (w : Nat) (s : String) : String :=
  String.mk (List.replicate (w - s.length) ' ') ++ s

/-- One report row, main.rs lines 131–135: the title passed through
`truncate_or_pad` at `TITLE_WIDTH`, a space, and the right-aligned
formatted duration. -/
def renderRow (cw : Char → Nat) (p : String × Nat) : String :=
  truncate_or_pad cw p.1 TITLE_WIDTH ++ " " ++ padRightAlign 10 (format_duration p.2)

/-- The Ctrl-C handler's report body, main.rs lines 100–149: it locks
and reads the duration ledger, sorts a copy of the entries by duration
descending, and renders one row per entry.  `now` is the shutdown
instant; the handler does not read `last_switch_time`, `last_window`,
the idle state or the clock, so the open interval of the currently
active bucket is not credited before rendering. -/
def ctrlcReport (cw : Char → Nat) (s : St) (now : Nat) : List String :=
  (sortLedger s.window_times).map (renderRow cw)

example : clean_window_title "C:\\a\\f.txt" = "f.txt" := by decide
example : clean_window_title "Notepad" = "Notepad" := by decide
example : format_duration 3671 = "01:01:11" := by decide

/-! ### Helper lemmas about the ledger -/

theorem lookupKey_addEntry_self (l : Ledger) (k : String) (d : Nat) :
    lookupKey (addEntry l k d) k = some ((lookupKey l k).getD 0 + d) := by
  induction l with
  | nil => simp [addEntry, lookupKey]
  | cons p rest ih =>
    obtain ⟨k', d'⟩ := p
    by_cases h : k' = k
    · simp [addEntry, lookupKey, h]
    · simp [addEntry, lookupKey, h, ih]

theorem lookupKey_addEntry_ne (l : Ledger) (k k' : String) (d : Nat) (h : k' ≠ k) :
    lookupKey (addEntry l k d) k' = lookupKey l k' := by
  induction l with
  | nil => simp [addEntry, lookupKey, Ne.symm h]
  | cons p rest ih =>
    obtain ⟨k'', d''⟩ := p
    by_cases hk : k'' = k
    · subst hk
      simp [addEntry, lookupKey, Ne.symm h]
    · by_cases hk' : k'' = k'
      · simp [addEntry, lookupKey, hk, hk', h]
      · simp [addEntry, lookupKey, hk, hk', ih]

theorem addEntry_keys (l : Ledger) (k : String) (d : Nat) :
    (addEntry l k d).map Prod.fst =
      if k ∈ l.map Prod.fst then l.map Prod.fst else l.map Prod.fst ++ [k] := by
  induction l with
  | nil => simp [addEntry]
  | cons p rest ih =>
    obtain ⟨k', d'⟩ := p
    by_cases h : k' = k
    · simp [addEntry, h]
    · by_cases hm : k ∈ rest.map Prod.fst
      · simp [addEntry, h, ih, hm, Ne.symm h]
      · simp [addEntry, h, ih, hm, Ne.symm h]

/-! ### Helper lemmas about single steps -/

theorem stepIdle_enter (s : St) (now d : Nat) (h1 : s.is_idle = false)
    (h2 : IDLE_THRESHOLD ≤ d) :
    stepIdle s now d = { s with is_idle := true, idle_start_time := some now } := by
  simp [stepIdle, h1, h2]

theorem stepIdle_exit (s : St) (now d t0 : Nat) (h1 : s.is_idle = true)
    (h2 : d < IDLE_THRESHOLD) (h3 : s.idle_start_time = some t0) :
    stepIdle s now d =
      { s with is_idle := false,
               window_times := addEntry s.window_times idleSentinel (now - t0),
               last_switch_time := now } := by
  simp [stepIdle, h1, h2, h3, Nat.not_le.mpr h2]

theorem stepIdle_noop_active (s : St) (now d : Nat) (h1 : s.is_idle = false)
    (h2 : d < IDLE_THRESHOLD) :
    stepIdle s now d = s := by
  simp [stepIdle, h1, Nat.not_le.mpr h2]

theorem stepIdle_noop_idle (s : St) (now d : Nat) (h1 : s.is_idle = true)
    (h2 : IDLE_THRESHOLD ≤ d) :
    stepIdle s now d = s := by
  simp [stepIdle, h1, Nat.not_lt.mpr h2]

theorem stepWindow_none (s : St) (now : Nat) : stepWindow s now none = s := rfl

theorem stepWindow_same (s : St) (now : Nat) :
    stepWindow s now (some s.last_window) = s := by
  simp [stepWindow]

theorem stepWindow_change (s : St) (now : Nat) (t : String)
    (h1 : s.is_idle = false) (h2 : s.last_window ≠ t) (h3 : s.last_window ≠ "") :
    stepWindow s now (some t) =
      { s with window_times := addEntry s.window_times s.last_window (now - s.last_switch_time),
               last_switch_time := now, last_window := t } := by
  simp [stepWindow, h1, h2, h3]

theorem stepWindow_change_empty (s : St) (now : Nat) (t : String)
    (h2 : s.last_window ≠ t) (h3 : s.last_window = "") (h1 : s.is_idle = false) :
    stepWindow s now (some t) =
      { s with last_switch_time := now, last_window := t } := by
  simp [stepWindow, h1, h3]
  intro h
  exact absurd (h3.trans h) h2

theorem stepWindow_while_idle (s : St) (now : Nat) (t : String) (h1 : s.is_idle = true) :
    stepWindow s now (some t) = { s with last_window := t } := by
  by_cases h2 : s.last_window = t
  · rw [← h2, stepWindow_same]
  · simp [stepWindow, h1, h2]

/-! ### Helper lemmas about runs -/

theorem run_append (s : St) (l1 l2 : List Sample) :
    run s (l1 ++ l2) = run (run s l1) l2 := by
  induction l1 generalizing s with
  | nil => rfl
  | cons x xs ih => simp [run, ih]

theorem run_noop_idle (s : St) (mids : List Sample) (h1 : s.is_idle = true)
    (h : ∀ m ∈ mids, IDLE_THRESHOLD ≤ m.idle ∧
          (m.title = none ∨ m.title = some s.last_window)) :
    run s mids = s := by
  induction mids with
  | nil => rfl
  | cons m ms ih =>
    have hm := h m (List.mem_cons_self m ms)
    have hstep : step s m.now m.idle m.title = s := by
      rw [step, stepIdle_noop_idle s _ _ h1 hm.1]
      rcases hm.2 with ht | ht
      · rw [ht, stepWindow_none]
      · rw [ht, stepWindow_same]
    rw [run, hstep]
    exact ih (fun m' hm' => h m' (List.mem_cons_of_mem _ hm'))

theorem stepIdle_exit_none (s : St) (now d : Nat) (h1 : s.is_idle = true)
    (h2 : d < IDLE_THRESHOLD) (h3 : s.idle_start_time = none) :
    stepIdle s now d = { s with is_idle := false, last_switch_time := now } := by
  simp [stepIdle, h1, h2, h3, Nat.not_le.mpr h2]

theorem stepWindow_is_idle (s : St) (now : Nat) (t : Option String) :
    (stepWindow s now t).is_idle = s.is_idle := by
  cases t with
  | none => rfl
  | some ct =>
    by_cases h2 : s.last_window = ct
    · rw [← h2, stepWindow_same]
    · by_cases h1 : s.is_idle = false
      · by_cases h3 : s.last_window = ""
        · rw [stepWindow_change_empty s now ct h2 h3 h1]
        · rw [stepWindow_change s now ct h1 h2 h3]
      · have h1' : s.is_idle = true := by revert h1; cases s.is_idle <;> simp
        rw [stepWindow_while_idle s now ct h1']

theorem stepIdle_is_idle (s : St) (now d : Nat) :
    (stepIdle s now d).is_idle = decide (IDLE_THRESHOLD ≤ d) := by
  by_cases h2 : IDLE_THRESHOLD ≤ d
  · by_cases h1 : s.is_idle = false
    · rw [stepIdle_enter s now d h1 h2]
      simp [h2]
    · have h1' : s.is_idle = true := by revert h1; cases s.is_idle <;> simp
      rw [stepIdle_noop_idle s now d h1' h2]
      simp [h1', h2]
  · have h2' : d < IDLE_THRESHOLD := Nat.not_le.mp h2
    by_cases h1 : s.is_idle = false
    · rw [stepIdle_noop_active s now d h1 h2']
      simp [h1, h2]
    · have h1' : s.is_idle = true := by revert h1; cases s.is_idle <;> simp
      cases h3 : s.idle_start_time with
      | none =>
        rw [stepIdle_exit_none s now d h1' h2' h3]
        simp [h2]
      | some t0 =>
        rw [stepIdle_exit s now d t0 h1' h2' h3]
        simp [h2]

/-! ### Helper lemmas about the report sort -/

theorem insertDesc_perm (x : String × Nat) (l : Ledger) :
    (insertDesc x l).Perm (x :: l) := by
  induction l with
  | nil => exact List.Perm.refl _
  | cons y ys ih =>
    by_cases h : y.2 ≤ x.2
    · simp only [insertDesc, if_pos h]
      exact List.Perm.refl _
    · simp only [insertDesc, if_neg h]
      exact (ih.cons y).trans (List.Perm.swap x y ys)

theorem sortLedger_perm (l : Ledger) : (sortLedger l).Perm l := by
  induction l with
  | nil => exact List.Perm.refl _
  | cons x xs ih => exact (insertDesc_perm x (sortLedger xs)).trans (ih.cons x)

theorem insertDesc_sorted (x : String × Nat) (l : Ledger)
    (h : l.Pairwise (fun a b => b.2 ≤ a.2)) :
    (insertDesc x l).Pairwise (fun a b => b.2 ≤ a.2) := by
  induction l with
  | nil => simp [insertDesc]
  | cons y ys ih =>
    rcases List.pairwise_cons.mp h with ⟨hy, hys⟩
    by_cases hc : y.2 ≤ x.2
    · simp only [insertDesc, if_pos hc]
      refine List.Pairwise.cons ?_ h
      intro z hz
      rcases List.mem_cons.mp hz with rfl | hz'
      · exact hc
      · exact le_trans (hy z hz') hc
    · simp only [insertDesc, if_neg hc]
      refine List.Pairwise.cons ?_ (ih hys)
      intro z hz
      rcases List.mem_cons.mp ((insertDesc_perm x ys).mem_iff.mp hz) with rfl | hz'
      · exact Nat.le_of_lt (Nat.lt_of_not_le hc)
      · exact hy z hz'

theorem insertDesc_filter (x : String × Nat) (l : Ledger) (d : Nat) :
    (insertDesc x l).filter (fun p => p.2 == d)
      = if x.2 = d then x :: l.filter (fun p => p.2 == d)
        else l.filter (fun p => p.2 == d) := by
  induction l with
  | nil => by_cases h : x.2 = d <;> simp [insertDesc, h]
  | cons y ys ih =>
    by_cases hc : y.2 ≤ x.2
    · simp only [insertDesc, if_pos hc, List.filter_cons]
      by_cases h : x.2 = d <;> simp [h]
    · have hlt : x.2 < y.2 := Nat.lt_of_not_le hc
      simp only [insertDesc, if_neg hc, List.filter_cons]
      by_cases h : x.2 = d
      · have hy : ¬ (y.2 = d) := by omega
        simp [h, hy, ih]
      · by_cases hy : y.2 = d <;> simp [h, hy, ih]

theorem sortLedger_filter (l : Ledger) (d : Nat) :
    (sortLedger l).filter (fun p => p.2 == d) = l.filter (fun p => p.2 == d) := by
  induction l with
  | nil => rfl
  | cons x xs ih =>
    rw [sortLedger, insertDesc_filter, List.filter_cons]
    by_cases h : x.2 = d <;> simp [h, ih]

/-! ### Helper lemmas about display width -/

theorem data_mk (l : List Char) : (String.mk l).data = l := rfl

theorem strWidth_append (cw : Char → Nat) (a b : List Char) :
    strWidth cw (a ++ b) = strWidth cw a + strWidth cw b := by
  simp [strWidth]

theorem strWidth_replicate_space (cw : Char → Nat) (h : cw ' ' = 1) (n : Nat) :
    strWidth cw (List.replicate n ' ') = n := by
  induction n with
  | zero => rfl
  | succ m ih => simp [strWidth, List.replicate_succ, h] at ih ⊢; omega

theorem fitLoop_width_le (cw : Char → Nat) (maxw : Nat) (hdot : cw '.' = 1) :
    ∀ (cs : List Char) (cur : Nat), cur ≤ maxw →
      strWidth cw (fitLoop cw maxw cur cs) + cur ≤ maxw + 3 := by
  intro cs
  induction cs with
  | nil =>
    intro cur h
    simp only [fitLoop, strWidth, List.map_nil, List.sum_nil]
    omega
  | cons c cs ih =>
    intro cur h
    by_cases hc : maxw < cur + cw c
    · simp only [fitLoop, if_pos hc, strWidth, List.map_cons, List.map_nil,
        List.sum_cons, List.sum_nil, hdot]
      omega
    · simp only [fitLoop, if_neg hc]
      have hrec := ih (cur + cw c) (Nat.not_lt.mp hc)
      simp only [strWidth, List.map_cons, List.sum_cons] at hrec ⊢
      omega

theorem fitLoop_all (cw : Char → Nat) (maxw : Nat) :
    ∀ (cs : List Char) (cur : Nat), strWidth cw cs + cur ≤ maxw →
      fitLoop cw maxw cur cs = cs := by
  intro cs
  induction cs with
  | nil => intro cur _; rfl
  | cons c cs ih =>
    intro cur h
    simp only [strWidth, List.map_cons, List.sum_cons] at h
    have hc : ¬ (maxw < cur + cw c) := by omega
    simp only [fitLoop, if_neg hc]
    rw [ih (cur + cw c) (by simp only [strWidth]; omega)]

/-! ### Claim theorems -/

/-- C1, counterexample: across an Active → Idle → Active excursion, time
is lost and the idle-exit credit is not `now - last_switch_time`.  With
window "A" focused from t=0, idle entered at t=10 and exited at t=20,
the switch-reference timestamp going into the exit tick is still 0, yet
only 10 seconds (t=20 minus the idle start t=10) are credited — the
active span from t=0 to t=10 is never credited to any bucket, so
`now - last_switch_time = 20 ≠ 10`. -/
theorem C1_lost_interval_counterexample :
    (run (initSt 0) [⟨0, 0, some "A"⟩, ⟨10, 60, none⟩]).last_switch_time = 0
    ∧ (run (initSt 0) [⟨0, 0, some "A"⟩, ⟨10, 60, none⟩,
        ⟨20, 0, some "A"⟩]).window_times = [(idleSentinel, 10)]
    ∧ (10 : Nat) ≠ 20 - (run (initSt 0)
        [⟨0, 0, some "A"⟩, ⟨10, 60, none⟩]).last_switch_time := by
  decide

/-- C1, amended: at a window-change transition while active, the credit
equals `now - last_switch_time` and `last_switch_time` is reset to
`now`; at an idle-exit transition, the credit equals
`now - idle_start_time` (not `now - last_switch_time`) and
`last_switch_time` is reset to `now`.  Since idle entry credits nothing
and does not reset `last_switch_time`, the span from the last switch to
the idle entry is lost, so the credited intervals do not tile elapsed
time across an Active → Idle → Active excursion. -/
theorem C1_credit_and_reset (s s' : St) (now d t0 now' : Nat) (t' : String)
    (h1 : s.is_idle = true) (h2 : d < IDLE_THRESHOLD)
    (h3 : s.idle_start_time = some t0)
    (h1' : s'.is_idle = false) (h2' : s'.last_window ≠ t')
    (h3' : s'.last_window ≠ "") :
    ((stepIdle s now d).window_times
        = addEntry s.window_times idleSentinel (now - t0)
      ∧ (stepIdle s now d).last_switch_time = now)
    ∧ ((stepWindow s' now' (some t')).window_times
        = addEntry s'.window_times s'.last_window (now' - s'.last_switch_time)
      ∧ (stepWindow s' now' (some t')).last_switch_time = now') := by
  rw [stepIdle_exit s now d t0 h1 h2 h3, stepWindow_change s' now' t' h1' h2' h3']
  exact ⟨⟨rfl, rfl⟩, rfl, rfl⟩

theorem C1_credit_and_reset_witness :
    ((stepIdle ⟨[], "A", 3, true, some 10⟩ 20 5).window_times
        = addEntry [] idleSentinel (20 - 10)
      ∧ (stepIdle ⟨[], "A", 3, true, some 10⟩ 20 5).last_switch_time = 20)
    ∧ ((stepWindow ⟨[], "A", 3, false, none⟩ 9 (some "B")).window_times
        = addEntry [] "A" (9 - 3)
      ∧ (stepWindow ⟨[], "A", 3, false, none⟩ 9 (some "B")).last_switch_time = 9) :=
  C1_credit_and_reset ⟨[], "A", 3, true, some 10⟩ ⟨[], "A", 3, false, none⟩
    20 5 10 9 "B" rfl (by decide) rfl rfl (by decide) (by decide)

/-- C2, counterexample: two raw titles that differ only in a path prefix
have equal cleaned forms, yet the accumulator performs a transition
between them and credits the raw (uncleaned) previous title — it does
not treat them as one bucket.  The loop compares and keys on the raw
title; cleaning happens only in display code. -/
theorem C2_raw_key_counterexample :
    clean_window_title "C:\\a\\f.txt" = clean_window_title "D:\\b\\f.txt"
    ∧ (run (initSt 0) [⟨0, 0, some "C:\\a\\f.txt"⟩,
        ⟨5, 0, some "D:\\b\\f.txt"⟩]).window_times = [("C:\\a\\f.txt", 5)]
    ∧ "C:\\a\\f.txt" ≠ "D:\\b\\f.txt" := by
  decide

/-- C2, amended: bucket identity is the raw focused-window title.  Two
sampled titles are the same bucket (same ledger key, no transition)
exactly when they are equal as raw strings: a differing raw title
triggers a transition crediting the raw previous title, while a raw
title equal to the current one changes nothing, regardless of cleaned
forms.  Cleaning is applied only when rendering labels. -/
theorem C2_raw_title_bucket (s : St) (now : Nat) (t : String)
    (h1 : s.is_idle = false) (h2 : s.last_window ≠ t)
    (h3 : s.last_window ≠ "") :
    (stepWindow s now (some t)).window_times
        = addEntry s.window_times s.last_window (now - s.last_switch_time)
    ∧ (stepWindow s now (some t)).last_window = t
    ∧ stepWindow s now (some s.last_window) = s := by
  rw [stepWindow_change s now t h1 h2 h3, stepWindow_same]
  exact ⟨rfl, rfl, rfl⟩

theorem C2_raw_title_bucket_witness :
    (stepWindow ⟨[], "C:\\a\\f.txt", 0, false, none⟩ 5
        (some "D:\\b\\f.txt")).window_times
        = addEntry [] "C:\\a\\f.txt" (5 - 0)
    ∧ (stepWindow ⟨[], "C:\\a\\f.txt", 0, false, none⟩ 5
        (some "D:\\b\\f.txt")).last_window = "D:\\b\\f.txt"
    ∧ stepWindow ⟨[], "C:\\a\\f.txt", 0, false, none⟩ 5
        (some "C:\\a\\f.txt") = ⟨[], "C:\\a\\f.txt", 0, false, none⟩ :=
  C2_raw_title_bucket ⟨[], "C:\\a\\f.txt", 0, false, none⟩ 5 "D:\\b\\f.txt"
    rfl (by decide) (by decide)

/-- C3, counterexample: after the example stream (Notepad at t=0 and
t=2, Chrome at t=5, idle crossed at t=9, idle exited at t=20 with
Notepad focused), the ledger is not just Notepad and the idle bucket:
the idle exit at t=20 resets the switch reference to 20, and the
Chrome → Notepad change in the same tick then credits 20 − 20 = 0 to
"Chrome", creating a third key, contradicting "no other keys". -/
theorem C3_extra_chrome_key_counterexample :
    lookupKey (run (initSt 0)
      [⟨0, 0, some "Notepad"⟩, ⟨2, 0, some "Notepad"⟩, ⟨5, 0, some "Chrome"⟩,
       ⟨9, 61, some "Chrome"⟩, ⟨20, 5, some "Notepad"⟩]).window_times "Chrome"
      = some 0 := by
  decide

/-- C3, amended: after the t=20 tick of the example stream, the ledger
is exactly {"Notepad" ↦ 5, idle-bucket ↦ 11, "Chrome" ↦ 0} — the claimed
Notepad and idle totals are right, but a "Chrome" entry with zero
duration is also created.  The active bucket is "Notepad" with the
switch reference at 20, so nothing is yet credited for the open
interval. -/
theorem C3_example_ledger :
    run (initSt 0)
      [⟨0, 0, some "Notepad"⟩, ⟨2, 0, some "Notepad"⟩, ⟨5, 0, some "Chrome"⟩,
       ⟨9, 61, some "Chrome"⟩, ⟨20, 5, some "Notepad"⟩]
    = { window_times := [("Notepad", 5), (idleSentinel, 11), ("Chrome", 0)],
        last_window := "Notepad", last_switch_time := 20,
        is_idle := false, idle_start_time := some 9 } := by
  decide

/-- C5, counterexample: the tracker is Idle after the t=10 sample, and a
single sampled idle duration of 5 s (a dip below the 60 s threshold) at
t=12 ends the idle period — the state does not remain Idle. -/
theorem C5_dip_counterexample :
    (run (initSt 0) [⟨0, 0, some "A"⟩, ⟨10, 60, some "A"⟩]).is_idle = true
    ∧ (run (initSt 0) [⟨0, 0, some "A"⟩, ⟨10, 60, some "A"⟩,
        ⟨12, 5, some "A"⟩]).is_idle = false := by
  decide

/-- C5, amended: after every sample the idle flag equals whether the
sampled idle duration is at or above the 60 s threshold.  Entry is
edge-triggered (only an Active state enters), but any sampled idle
duration below the threshold while Idle immediately ends the idle
period, crediting the idle bucket — a dip is exactly the exit
condition, so idle does not persist across it. -/
theorem C5_idle_flag_tracks_sample (s : St) (now d : Nat) (t : Option String) :
    (step s now d t).is_idle = decide (IDLE_THRESHOLD ≤ d) := by
  rw [step, stepWindow_is_idle, stepIdle_is_idle]

/-- C7, counterexample: on a 41-character ASCII title, `truncate_or_pad`
at width 40 emits 40 characters plus the three-dot ellipsis, for a
display width of 43 columns, not exactly 40. -/
theorem C7_overflow_counterexample :
    strWidth stdWidth (truncate_or_pad stdWidth
        (String.mk (List.replicate 41 'a')) TITLE_WIDTH).data = 43
    ∧ (43 : Nat) ≠ TITLE_WIDTH := by
  decide

/-- C9: the ledger is keyed by the raw focused-window title while every
displayed row cleans the key inside `truncate_or_pad`, so two raw
titles differing only in their path prefix produce two distinct ledger
entries whose rendered 40-column labels are identical. -/
theorem C9_identical_labels_distinct_entries :
    (run (initSt 0) [⟨0, 0, some "C:\\a\\f.txt"⟩, ⟨5, 0, some "D:\\b\\f.txt"⟩,
        ⟨9, 0, some "Z"⟩]).window_times
      = [("C:\\a\\f.txt", 5), ("D:\\b\\f.txt", 4)]
    ∧ "C:\\a\\f.txt" ≠ "D:\\b\\f.txt"
    ∧ truncate_or_pad stdWidth "C:\\a\\f.txt" TITLE_WIDTH
        = truncate_or_pad stdWidth "D:\\b\\f.txt" TITLE_WIDTH := by
  decide

/-- C4: for every sample stream that enters idle from an active state at
a sample at or above the 60 s threshold and exits idle at a later sample
below the threshold, with no window change in between, exactly
`exit time − entry time` is credited to the idle bucket, every other
bucket's total is unchanged (zero credited to any window bucket for the
interval), and the switch-reference timestamp is reset to the exit
time. -/
theorem C4_idle_interval_credit (s : St) (mids : List Sample)
    (te de tx dx : Nat) (tite titx : Option String) (w : String)
    (h1 : s.is_idle = false) (h2 : IDLE_THRESHOLD ≤ de)
    (h3 : dx < IDLE_THRESHOLD)
    (he : tite = none ∨ tite = some s.last_window)
    (hx : titx = none ∨ titx = some s.last_window)
    (hm : ∀ m ∈ mids, IDLE_THRESHOLD ≤ m.idle ∧
          (m.title = none ∨ m.title = some s.last_window))
    (hw : w ≠ idleSentinel) :
    run s (⟨te, de, tite⟩ :: mids ++ [⟨tx, dx, titx⟩])
      = { s with is_idle := false,
                 window_times := addEntry s.window_times idleSentinel (tx - te),
                 last_switch_time := tx, idle_start_time := some te }
    ∧ lookupKey (run s
        (⟨te, de, tite⟩ :: mids ++ [⟨tx, dx, titx⟩])).window_times w
      = lookupKey s.window_times w := by
  have hstep_e : step s te de tite
      = { s with is_idle := true, idle_start_time := some te } := by
    rw [step, stepIdle_enter s te de h1 h2]
    rcases he with ht | ht
    · rw [ht, stepWindow_none]
    · rw [ht]
      exact stepWindow_same _ _
  have key : run s (⟨te, de, tite⟩ :: mids ++ [⟨tx, dx, titx⟩])
      = { s with is_idle := false,
                 window_times := addEntry s.window_times idleSentinel (tx - te),
                 last_switch_time := tx, idle_start_time := some te } := by
    have e1 : run s (⟨te, de, tite⟩ :: mids ++ [⟨tx, dx, titx⟩])
        = run (step s te de tite) (mids ++ [⟨tx, dx, titx⟩]) := rfl
    rw [e1, hstep_e, run_append]
    have hmid : run { s with is_idle := true, idle_start_time := some te } mids
        = { s with is_idle := true, idle_start_time := some te } :=
      run_noop_idle _ mids rfl (fun m hm' => hm m hm')
    rw [hmid]
    have e2 : run { s with is_idle := true, idle_start_time := some te }
        [⟨tx, dx, titx⟩]
        = step { s with is_idle := true, idle_start_time := some te } tx dx titx :=
      rfl
    rw [e2, step,
      stepIdle_exit { s with is_idle := true, idle_start_time := some te }
        tx dx te rfl h3 rfl]
    rcases hx with ht | ht
    · rw [ht, stepWindow_none]
    · rw [ht]
      exact stepWindow_same _ _
  refine ⟨key, ?_⟩
  rw [key]
  exact lookupKey_addEntry_ne s.window_times idleSentinel w (tx - te) hw

theorem C4_idle_interval_credit_witness :
    run ⟨[], "A", 0, false, none⟩
        [⟨10, 61, some "A"⟩, ⟨12, 61, some "A"⟩, ⟨20, 5, some "A"⟩]
      = ⟨addEntry [] idleSentinel (20 - 10), "A", 20, false, some 10⟩
    ∧ lookupKey (run ⟨[], "A", 0, false, none⟩
        [⟨10, 61, some "A"⟩, ⟨12, 61, some "A"⟩, ⟨20, 5, some "A"⟩]).window_times "A"
      = lookupKey ([] : Ledger) "A" :=
  C4_idle_interval_credit ⟨[], "A", 0, false, none⟩ [⟨12, 61, some "A"⟩]
    10 61 20 5 (some "A") (some "A") "A" rfl (by decide) (by decide)
    (Or.inr rfl) (Or.inr rfl) (by decide) (by decide)

/-- C6: the Ctrl-C handler renders the ledger exactly as accumulated:
its output is determined by the ledger alone — two states with the same
ledger but different switch-reference timestamps, idle flags and
shutdown instants report identically, so the open interval of the
currently active bucket is never credited before rendering — and the
rendered rows are a permutation of one row per accumulated ledger
entry, with the ledger contents otherwise unchanged. -/
theorem C6_report_unflushed (cw : Char → Nat) (s1 s2 : St) (now1 now2 : Nat)
    (h : s1.window_times = s2.window_times) :
    ctrlcReport cw s1 now1 = ctrlcReport cw s2 now2
    ∧ (ctrlcReport cw s1 now1).Perm (s1.window_times.map (renderRow cw)) := by
  constructor
  · rw [ctrlcReport, ctrlcReport, h]
  · exact (sortLedger_perm s1.window_times).map (renderRow cw)

theorem C6_report_unflushed_witness :
    ctrlcReport stdWidth ⟨[("A", 3)], "A", 5, false, none⟩ 100
      = ctrlcReport stdWidth ⟨[("A", 3)], "B", 99, true, some 7⟩ 0
    ∧ (ctrlcReport stdWidth ⟨[("A", 3)], "A", 5, false, none⟩ 100).Perm
        ([("A", 3)].map (renderRow stdWidth)) :=
  C6_report_unflushed stdWidth ⟨[("A", 3)], "A", 5, false, none⟩
    ⟨[("A", 3)], "B", 99, true, some 7⟩ 100 0 rfl

/-- C7, amended: for every character-width function assigning the dot
and the space width 1 (as `unicode_width` does) and every input string,
`truncate_or_pad(text, 40)` yields a display width of at least 40 and at
most 43 columns; it is exactly 40 whenever the cleaned input fits in 40
columns (the padding case), but in the truncation case the emitted
ellipsis overshoots, giving 42 or 43 columns rather than exactly 40. -/
theorem C7_fit_width_bounds (cw : Char → Nat) (s : String)
    (hdot : cw '.' = 1) (hsp : cw ' ' = 1) :
    TITLE_WIDTH ≤ strWidth cw (truncate_or_pad cw s TITLE_WIDTH).data
    ∧ strWidth cw (truncate_or_pad cw s TITLE_WIDTH).data ≤ TITLE_WIDTH + 3
    ∧ (strWidth cw (clean_window_title s).data ≤ TITLE_WIDTH →
        strWidth cw (truncate_or_pad cw s TITLE_WIDTH).data = TITLE_WIDTH) := by
  by_cases hlt :
      strWidth cw (fitLoop cw TITLE_WIDTH 0 (clean_window_title s).data)
        < TITLE_WIDTH
  · simp only [truncate_or_pad, if_pos hlt, data_mk]
    rw [strWidth_append, strWidth_replicate_space cw hsp]
    exact ⟨by omega, by omega, fun _ => by omega⟩
  · have hub := fitLoop_width_le cw TITLE_WIDTH hdot
      (clean_window_title s).data 0 (Nat.zero_le _)
    simp only [truncate_or_pad, if_neg hlt, data_mk]
    refine ⟨Nat.not_lt.mp hlt, by omega, ?_⟩
    intro hfits
    rw [fitLoop_all cw TITLE_WIDTH (clean_window_title s).data 0
      (by omega)] at hlt ⊢
    omega

theorem C7_fit_width_bounds_witness :
    TITLE_WIDTH ≤ strWidth stdWidth (truncate_or_pad stdWidth "hi" TITLE_WIDTH).data
    ∧ strWidth stdWidth (truncate_or_pad stdWidth "hi" TITLE_WIDTH).data
        ≤ TITLE_WIDTH + 3
    ∧ (strWidth stdWidth (clean_window_title "hi").data ≤ TITLE_WIDTH →
        strWidth stdWidth (truncate_or_pad stdWidth "hi" TITLE_WIDTH).data
          = TITLE_WIDTH) :=
  C7_fit_width_bounds stdWidth "hi" (by decide) (by decide)

/-- C8: the shutdown report's sorted entry list contains one row per
ledger entry (it is a permutation of the ledger), is ordered by
accumulated duration descending, and the sort is stable: for every
duration value, the entries carrying it appear in their original
iteration order. -/
theorem C8_sorted_stable_report (l : Ledger) :
    (sortLedger l).Perm l
    ∧ (sortLedger l).Pairwise (fun a b => b.2 ≤ a.2)
    ∧ ∀ d : Nat, (sortLedger l).filter (fun p => p.2 == d)
        = l.filter (fun p => p.2 == d) := by
  refine ⟨sortLedger_perm l, ?_, fun d => sortLedger_filter l d⟩
  induction l with
  | nil => exact List.Pairwise.nil
  | cons x xs ih => exact insertDesc_sorted x (sortLedger xs) ih

/-- C10: the idle sentinel is an ordinary, non-reserved ledger key.
Starting from any active state whose focused window's raw title is
exactly the sentinel string, a window change (crediting that window)
followed by an idle period (crediting idle time) accumulates both
credits under the single sentinel ledger entry: the final total is the
sum of the window time and the idle time, and only one entry with that
key exists. -/
theorem C10_sentinel_is_ordinary_key (s : St) (t1 d1 t2 d2 t3 d3 : Nat)
    (w : String)
    (h1 : s.is_idle = false) (hlw : s.last_window = idleSentinel)
    (hw : w ≠ idleSentinel)
    (hd1 : d1 < IDLE_THRESHOLD) (hd2 : IDLE_THRESHOLD ≤ d2)
    (hd3 : d3 < IDLE_THRESHOLD)
    (hnd : (s.window_times.map Prod.fst).Nodup) :
    lookupKey (run s [⟨t1, d1, some w⟩, ⟨t2, d2, none⟩,
        ⟨t3, d3, some w⟩]).window_times idleSentinel
      = some ((lookupKey s.window_times idleSentinel).getD 0
          + (t1 - s.last_switch_time) + (t3 - t2))
    ∧ ((run s [⟨t1, d1, some w⟩, ⟨t2, d2, none⟩,
        ⟨t3, d3, some w⟩]).window_times.map Prod.fst).count idleSentinel = 1 := by
  have hs1 : step s t1 d1 (some w)
      = { s with
          window_times :=
            addEntry s.window_times idleSentinel (t1 - s.last_switch_time),
          last_switch_time := t1, last_window := w } := by
    rw [step, stepIdle_noop_active s t1 d1 h1 hd1,
      stepWindow_change s t1 w h1 (by rw [hlw]; exact Ne.symm hw)
        (by rw [hlw]; decide), hlw]
  have hrun : run s [⟨t1, d1, some w⟩, ⟨t2, d2, none⟩, ⟨t3, d3, some w⟩]
      = { s with
          window_times :=
            addEntry (addEntry s.window_times idleSentinel
              (t1 - s.last_switch_time)) idleSentinel (t3 - t2),
          last_switch_time := t3, last_window := w,
          is_idle := false, idle_start_time := some t2 } := by
    show run (step s t1 d1 (some w)) [⟨t2, d2, none⟩, ⟨t3, d3, some w⟩] = _
    rw [hs1]
    set s1 : St := { s with
        window_times :=
          addEntry s.window_times idleSentinel (t1 - s.last_switch_time),
        last_switch_time := t1, last_window := w } with hs1def
    show run (step s1 t2 d2 none) [⟨t3, d3, some w⟩] = _
    rw [step, stepIdle_enter s1 t2 d2 (show s1.is_idle = false from h1) hd2,
      stepWindow_none]
    show step { s1 with is_idle := true, idle_start_time := some t2 }
      t3 d3 (some w) = _
    rw [step, stepIdle_exit { s1 with is_idle := true, idle_start_time := some t2 }
      t3 d3 t2 rfl hd3 rfl]
    exact stepWindow_same _ _
  rw [hrun]
  constructor
  · rw [lookupKey_addEntry_self, lookupKey_addEntry_self]
    simp [Nat.add_assoc]
  · rw [addEntry_keys, addEntry_keys]
    by_cases hmem : idleSentinel ∈ s.window_times.map Prod.fst
    · simp only [if_pos hmem, if_pos hmem]
      exact List.count_eq_one_of_mem hnd hmem
    · simp only [if_neg hmem]
      have hmem2 : idleSentinel ∈ s.window_times.map Prod.fst ++ [idleSentinel] := by
        simp
      simp only [if_pos hmem2, List.count_append]
      simp [List.count_eq_zero_of_not_mem hmem, List.count_cons]

theorem C10_sentinel_is_ordinary_key_witness :
    lookupKey (run ⟨[], idleSentinel, 0, false, none⟩
        [⟨4, 0, some "B"⟩, ⟨10, 60, none⟩,
          ⟨15, 3, some "B"⟩]).window_times idleSentinel
      = some ((lookupKey ([] : Ledger) idleSentinel).getD 0 + (4 - 0) + (15 - 10))
    ∧ ((run ⟨[], idleSentinel, 0, false, none⟩
        [⟨4, 0, some "B"⟩, ⟨10, 60, none⟩,
          ⟨15, 3, some "B"⟩]).window_times.map Prod.fst).count idleSentinel = 1 :=
  C10_sentinel_is_ordinary_key ⟨[], idleSentinel, 0, false, none⟩
    4 0 10 60 15 3 "B" rfl rfl (by decide) (by decide) (by decide) (by decide)
    (by simp)

end WindowTracker
